import Mathlib

/-!
Shallow embedding of the MapCam repository (src/main.py and
src/smart_camera_expander.py): the discovery/validation pipeline of
`InsecamScraper` and the expansion engine of `SmartCameraExpander`.

Network effects are modelled by passing each external fetch's outcome as an
explicit parameter; Python exceptions become `Option`/explicit outcome
constructors; floats become `ℚ`; the global `random` source becomes an
explicit list of draws.  Stdlib helpers used by the code (`float`,
`urllib.parse.urlparse`, `ipaddress`, `str.replace`, `str.lower`) are
modelled by executable Lean functions faithful on the fragment the program
exercises, each documented at its definition.
-/

/-- Does the pattern `ps` occur at the start of `cs`?  (Helper for the model
of Python's substring operations.) -/
def startsWithList : List Char → List Char → Bool
  | [], _ => true
  | _ :: _, [] => false
  | p :: ps, c :: cs => p == c && startsWithList ps cs

/-- Does the pattern `pat` occur anywhere inside the list?  (Model of
Python's `pat in s` substring test.) -/
def containsSub (pat : List Char) : List Char → Bool
  | [] => startsWithList pat []
  | c :: cs => startsWithList pat (c :: cs) || containsSub pat cs

/-- Python's `pat in s` substring test on strings. -/
def hasSub (s pat : String) : Bool := containsSub pat.data s.data

/-- Model of Python's ASCII `str.lower` on a single character (the
characters the program lowercases are ASCII). -/
def asciiToLower (c : Char) : Char :=
  if 'A' ≤ c ∧ c ≤ 'Z' then Char.ofNat (c.toNat + 32) else c

/-- Model of Python's `str.lower` (ASCII fragment). -/
def strLower (s : String) : String := String.mk (s.data.map asciiToLower)

/-- Split a character list at every occurrence of `sep` (model of Python's
`str.split(sep)` for a one-character separator, as used by `ipaddress` on
dotted quads). -/
def splitOnChar (sep : Char) : List Char → List (List Char)
  | [] => [[]]
  | c :: cs =>
    if c = sep then [] :: splitOnChar sep cs
    else
      match splitOnChar sep cs with
      | [] => [[c]]
      | g :: gs => (c :: g) :: gs

/-- Numeric value of a most-significant-first digit list. -/
def digitsVal (cs : List Char) : ℕ := cs.foldl (fun n c => 10 * n + (c.toNat - 48)) 0

/-- Are all characters decimal digits? -/
def allDigits (cs : List Char) : Bool := cs.all Char.isDigit

/-- Value of a decimal literal with integer part `ip` and fraction part `fp`. -/
def decVal (ip fp : List Char) : ℚ :=
  (digitsVal ip : ℚ) + (digitsVal fp : ℚ) / ((10 : ℚ) ^ fp.length)

/-- Unsigned part of the Python `float()` model: plain decimal literals
`ddd`, `ddd.ddd`, `ddd.` and `.ddd`. -/
def pyFloatUnsigned (cs : List Char) : Option ℚ :=
  match splitOnChar '.' cs with
  | [ip] => if !ip.isEmpty && allDigits ip then some (digitsVal ip) else none
  | [ip, fp] =>
    if (!ip.isEmpty || !fp.isEmpty) && allDigits ip && allDigits fp then
      some (decVal ip fp)
    else none
  | _ => none

/-- Model of Python's `float(s)` restricted to optionally signed plain
decimal literals (the shape of the coordinate strings the scraper parses);
`none` models the `ValueError` that `float` raises on anything else. -/
def pyFloat (s : String) : Option ℚ :=
  match s.data with
  | '-' :: rest => (pyFloatUnsigned rest).map (fun q => -q)
  | '+' :: rest => pyFloatUnsigned rest
  | cs => pyFloatUnsigned cs

/-- The canonical unit of output (spec's Record).  Field names follow the
dict keys built in `extract_camera_details` and `test_camera_url`.
`latitude`/`longitude`/`country`/`city`/`region` are `Option`s because the
expansion path stores the geolocation answer's values verbatim, and those
can be JSON `null` (Python `None`); `source`/`ip_address` are the extra keys
that only `test_camera_url` adds (`none` models the key being absent, as in
discovery-mode dicts). -/
structure CameraRecord where
  latitude : Option ℚ
  longitude : Option ℚ
  country : Option String
  city : Option String
  region : Option String
  manufacturer : String
  image_url : String
  page_url : String
  source : Option String
  ip_address : Option String
deriving DecidableEq

/-- The spec's provenance tag. -/
inductive Origin where
  | listing
  | expansion
deriving DecidableEq

/-- The spec's `origin` enum as realized in the code: expansion-mode dicts
carry `"source": "smart_expansion"`, discovery-mode dicts have no such key. -/
def CameraRecord.origin (r : CameraRecord) : Origin :=
  if r.source = some "smart_expansion" then Origin.expansion else Origin.listing

/-- The six labelled fields plus the image URL, as read off a detail page by
`get_detail` / the image selector in `extract_camera_details`; a missing
label or value has already been degraded to the sentinel `"N/A"`. -/
structure RawFields where
  lat : String
  lon : String
  country : String
  city : String
  region : String
  manufacturer : String
  image_url : String
deriving DecidableEq

/-- Embedding of the validation tail of `InsecamScraper.extract_camera_details`
(src/main.py lines 85-105): require the four mandatory fields non-sentinel,
parse the coordinates (a parse failure — Python `ValueError` — yields
`none`), range-check them, and only then build the record dict. -/
def extract_validate (f : RawFields) (camera_url : String) : Option CameraRecord :=
  if f.lat ≠ "N/A" ∧ f.lon ≠ "N/A" ∧ f.country ≠ "N/A" ∧ f.city ≠ "N/A" then
    match pyFloat f.lat, pyFloat f.lon with
    | some la, some lo =>
      if -90 ≤ la ∧ la ≤ 90 ∧ -180 ≤ lo ∧ lo ≤ 180 then
        some { latitude := some la, longitude := some lo, country := some f.country,
               city := some f.city, region := some f.region, manufacturer := f.manufacturer,
               image_url := f.image_url, page_url := camera_url,
               source := none, ip_address := none }
      else none
    | _, _ => none
  else none

/-- Embedding of `InsecamScraper.extract_camera_details` as a whole: `page`
is the raw field set scraped off the candidate page, with `none` standing
for any of the early exits (transport failure, missing details region, or
any exception — all return `None` in the source). -/
def extract_camera_details (page : Option RawFields) (camera_url : String) :
    Option CameraRecord :=
  match page with
  | none => none
  | some f => extract_validate f camera_url

/-- C4: the Validator accepts and produces a Record exactly when all four
required fields are non-sentinel, both coordinates parse as floating point,
and they are inside [-90,90] × [-180,180]; every other raw field set is
rejected by returning no Record (the embedding is a total function, mirroring
that `extract_camera_details` catches the `ValueError` and never propagates
an exception). -/
theorem C4_validator_accepts_iff (f : RawFields) (camera_url : String) :
    (extract_validate f camera_url).isSome = true ↔
      (f.lat ≠ "N/A" ∧ f.lon ≠ "N/A" ∧ f.country ≠ "N/A" ∧ f.city ≠ "N/A" ∧
        ∃ la lo, pyFloat f.lat = some la ∧ pyFloat f.lon = some lo ∧
          -90 ≤ la ∧ la ≤ 90 ∧ -180 ≤ lo ∧ lo ≤ 180) := by
  unfold extract_validate
  split
  · rename_i hs
    rcases hla : pyFloat f.lat with _ | la <;> rcases hlo : pyFloat f.lon with _ | lo <;>
      simp [hla, hlo, hs]
  · rename_i hs
    simp only [Option.isSome_none, Bool.false_eq_true, false_iff]
    intro h
    exact hs ⟨h.1, h.2.1, h.2.2.1, h.2.2.2.1⟩

/-- Outcome of one `session.get(...)` to a JSON provider: `exn` is a raised
transport exception; `resp statusCode body` is a returned response, where
`body = none` models a body on which `.json()` raises. -/
inductive FetchOutcome (α : Type) where
  | exn : FetchOutcome α
  | resp (statusCode : ℕ) (body : Option α) : FetchOutcome α
deriving DecidableEq

/-- Decoded JSON answer of the first provider (ipapi.co): flat object with
an optional truthy `error` flag; each data key may be absent or null, both
modelled as `none`. -/
structure ApiAData where
  error : Bool
  latitude : Option ℚ
  longitude : Option ℚ
  country_name : Option String
  city : Option String
  region : Option String
deriving DecidableEq

/-- Decoded JSON answer of the second provider (ip-api.com). -/
structure ApiBData where
  status : Option String
  lat : Option ℚ
  lon : Option ℚ
  country : Option String
  city : Option String
  regionName : Option String
deriving DecidableEq

/-- The dict `get_ip_geolocation` returns on success: all five keys are
always present, but their values are copied verbatim from the provider and
may be null. -/
structure GeoInfo where
  lat : Option ℚ
  lon : Option ℚ
  country : Option String
  city : Option String
  region : Option String
deriving DecidableEq

/-- The fallback half of `get_ip_geolocation` (src/smart_camera_expander.py
lines 241-252): provider B's answer is used only on a 200 status with a
decodable body whose `status` field equals `"success"`; a raised exception
or undecodable body lands in the enclosing `except` and yields `none`. -/
def geoFromB : FetchOutcome ApiBData → Option GeoInfo
  | FetchOutcome.exn => none
  | FetchOutcome.resp s body =>
    if s = 200 then
      match body with
      | none => none
      | some d =>
        if d.status = some "success" then
          some ⟨d.lat, d.lon, d.country, d.city, d.regionName⟩
        else none
    else none

/-- Embedding of `SmartCameraExpander.get_ip_geolocation` (lines 223-259).
One `try` block wraps both provider calls: an exception raised while
querying provider A (or by decoding its 200 body) jumps to the `except`
and returns `None` without ever querying provider B; only a non-200 status
or an error-flagged decoded body falls through to provider B.  `a` and `b`
are the outcomes the two providers would deliver if queried. -/
def get_ip_geolocation (a : FetchOutcome ApiAData) (b : FetchOutcome ApiBData) :
    Option GeoInfo :=
  match a with
  | FetchOutcome.exn => none
  | FetchOutcome.resp s body =>
    if s = 200 then
      match body with
      | none => none
      | some d =>
        if d.error = false then
          some ⟨d.latitude, d.longitude, d.country_name, d.city, d.region⟩
        else geoFromB b
    else geoFromB b

/-- Provider A delivered a usable answer: a 200 response with a decodable,
non-error-flagged body. -/
def usableA (a : FetchOutcome ApiAData) : Prop :=
  ∃ d, a = FetchOutcome.resp 200 (some d) ∧ d.error = false

/-- Provider A's query aborted the whole resolution by raising: a transport
exception, or a 200 response whose body `.json()` cannot decode. -/
def abortsA (a : FetchOutcome ApiAData) : Prop :=
  a = FetchOutcome.exn ∨ a = FetchOutcome.resp 200 none

/-- C2 counterexample: provider A raises a transport exception while
provider B would deliver a success-flagged answer, yet the Resolver returns
none — so it is not the case that none is returned only when both providers
fail, and provider B is not queried after a transport exception from A. -/
theorem C2_counterexample :
    get_ip_geolocation FetchOutcome.exn
        (FetchOutcome.resp 200 (some ⟨some "success", some 1, some 2,
          some "Testland", some "Testville", some "T"⟩)) = none ∧
    geoFromB (FetchOutcome.resp 200 (some ⟨some "success", some 1, some 2,
          some "Testland", some "Testville", some "T"⟩)) ≠ none := by
  constructor
  · rfl
  · decide

/-- C2 amended: the Resolver returns none exactly when provider A's answer
is unusable and either provider A's query aborted resolution (transport
exception or undecodable 200 body — in which case provider B is never
queried) or provider B fails to deliver a success-flagged decodable 200
answer. -/
theorem C2_amended_resolver_none_iff (a : FetchOutcome ApiAData)
    (b : FetchOutcome ApiBData) :
    get_ip_geolocation a b = none ↔
      (¬ usableA a ∧ (abortsA a ∨ geoFromB b = none)) := by
  rcases a with _ | ⟨s, _ | d⟩
  · simp [get_ip_geolocation, usableA, abortsA]
  · by_cases hs : s = 200 <;>
      simp [get_ip_geolocation, usableA, abortsA, hs]
  · by_cases hs : s = 200 <;> by_cases he : d.error = false <;>
      simp [get_ip_geolocation, usableA, abortsA, hs, he]

/-- Outcome of one completed worker task as seen by the result-collection
loop of `scrape_cameras`: `future.result()` raised (`exn`), returned `None`
(`rejected`), or returned a record dict (`accepted`). -/
inductive TaskOutcome where
  | exn
  | rejected
  | accepted (r : CameraRecord)
deriving DecidableEq

/-- Observable state of the result-collection loop of
`InsecamScraper.scrape_cameras` (src/main.py lines 152-175):
`processed`/`scraped` are the two counters, `cameras` the accumulated list,
`progressEvents` the emitted progress prints as (processed, scraped) pairs,
`tempSaves` the intermediate checkpoint writes (by scraped count). -/
structure ScrapeLoopState where
  processed : ℕ
  scraped : ℕ
  cameras : List CameraRecord
  progressEvents : List (ℕ × ℕ)
  tempSaves : List ℕ
deriving DecidableEq

/-- One iteration of the `as_completed` loop: `processed_count` always
increments; only when the task returned a record are the record appended,
`scraped_count` incremented, and — inside that same `if result:` block —
the 50-completion progress print and 100-acceptance checkpoint executed.
An exception from `future.result()` is caught and only logged. -/
def scrape_step (s : ScrapeLoopState) (o : TaskOutcome) : ScrapeLoopState :=
  match o with
  | TaskOutcome.accepted r =>
    { processed := s.processed + 1
      scraped := s.scraped + 1
      cameras := s.cameras ++ [r]
      progressEvents := s.progressEvents ++
        (if (s.processed + 1) % 50 = 0 then [(s.processed + 1, s.scraped + 1)] else [])
      tempSaves := s.tempSaves ++
        (if (s.scraped + 1) % 100 = 0 then [s.scraped + 1] else []) }
  | _ => { s with processed := s.processed + 1 }

/-- The whole result-collection loop over the task outcomes in completion
order. -/
def scrape_collect (outcomes : List TaskOutcome) : ScrapeLoopState :=
  outcomes.foldl scrape_step ⟨0, 0, [], [], []⟩

/-- A concrete valid record used as sample data in concrete instances. -/
def sampleRecord : CameraRecord :=
  { latitude := some 10, longitude := some 20, country := some "France",
    city := some "Paris", region := some "IDF", manufacturer := "Axis",
    image_url := "http://203.0.113.9:80/mjpg/video.mjpg",
    page_url := "http://www.insecam.org/en/view/1/",
    source := none, ip_address := none }

theorem scrape_collect_processed (outcomes : List TaskOutcome) :
    ∀ s : ScrapeLoopState, (outcomes.foldl scrape_step s).processed =
      s.processed + outcomes.length := by
  induction outcomes with
  | nil => intro s; simp
  | cons o rest ih =>
    intro s
    rw [List.foldl_cons, ih]
    rcases o <;> simp [scrape_step] <;> omega

/-- C6 counterexample: in a completion sequence of 50 tasks whose 50th
completion is a rejection (the first 49 all accepted), no progress event is
emitted at the 50th completion — the progress print sits inside the
`if result:` block, so it is skipped when the K-th completed task was
rejected. -/
theorem C6_counterexample :
    (scrape_collect (List.replicate 49 (TaskOutcome.accepted sampleRecord) ++
        [TaskOutcome.rejected])).processed = 50 ∧
    (scrape_collect (List.replicate 49 (TaskOutcome.accepted sampleRecord) ++
        [TaskOutcome.rejected])).progressEvents = [] := by
  constructor <;> rfl

/-- C6 amended: the n-th task completion emits a progress event (with the
updated processed and accepted counts) precisely when n is a multiple of
K = 50 AND that task was accepted; a rejected or failed completion emits
nothing even when n is a multiple of 50. -/
theorem C6_amended_progress_on_accept (outcomes : List TaskOutcome) (o : TaskOutcome) :
    (scrape_collect (outcomes ++ [o])).progressEvents =
      (scrape_collect outcomes).progressEvents ++
        (match o with
         | TaskOutcome.accepted _ =>
           if (outcomes.length + 1) % 50 = 0 then
             [(outcomes.length + 1, (scrape_collect outcomes).scraped + 1)]
           else []
         | _ => []) := by
  unfold scrape_collect
  rw [List.foldl_append, List.foldl_cons, List.foldl_nil]
  rcases o <;> simp [scrape_step, scrape_collect_processed]

/-- Fixed table of manufacturer names the detector can produce. -/
def manufacturerTable : List String :=
  ["Axis", "Panasonic", "Canon", "Sony", "WebcamXP", "FDT", "Unknown"]

/-- Embedding of `SmartCameraExpander.detect_manufacturer` (lines 261-278):
lower-case the URL, then test a fixed list of substring signatures in
priority order, falling back to "Unknown". -/
def detect_manufacturer (url : String) : String :=
  let u := strLower url
  if hasSub u "axis" || hasSub u "mjpg/video" then "Axis"
  else if hasSub u "snapshotjpeg" || hasSub u "cgi-bin/camera" then "Panasonic"
  else if hasSub u "getoneshot" then "Canon"
  else if hasSub u "oneshotimage" then "Sony"
  else if hasSub u "cam_" && hasSub u ".cgi" then "WebcamXP"
  else if hasSub u "tmpfs/auto.jpg" then "FDT"
  else "Unknown"

/-- C9: the manufacturer-inference function is total and deterministic (it
is a Lean function), and for every input URL it returns an element of the
fixed table {Axis, Panasonic, Canon, Sony, WebcamXP, FDT, Unknown}, chosen
by matching lower-cased substring signatures in the fixed priority order of
its definition, with "Unknown" when no signature matches. -/
theorem C9_detect_manufacturer_total (url : String) :
    detect_manufacturer url ∈ manufacturerTable := by
  unfold detect_manufacturer manufacturerTable
  dsimp only
  split
  · simp
  · split
    · simp
    · split
      · simp
      · split
        · simp
        · split
          · simp
          · split <;> simp

/-- The decimal digit character for `n < 10`. -/
def digitChar (n : ℕ) : Char := Char.ofNat (48 + n)

/-- Fuel-based core of the decimal rendering (structural recursion so that
it evaluates by kernel reduction); the fuel never runs out when it starts
at least at 1, since `n / 10 < n` for `n ≥ 10`. -/
def natReprAux : ℕ → ℕ → List Char
  | 0, _ => []
  | fuel + 1, n =>
    if n < 10 then [digitChar n] else natReprAux fuel (n / 10) ++ [digitChar (n % 10)]

/-- Decimal rendering of a natural number, most significant digit first
(model of Python's `str(int)`). -/
def natRepr (n : ℕ) : List Char := natReprAux (n + 1) n

/-- Decimal rendering as a string. -/
def natStr (n : ℕ) : String := String.mk (natRepr n)

/-- Canonical dotted-quad rendering of an IPv4 address value (model of
Python's `str(IPv4Address)`, which the expander applies to
`network_address + randint(1, 254)`). -/
def ipToString (n : ℕ) : String :=
  natStr (n / 16777216 % 256) ++ "." ++ natStr (n / 65536 % 256) ++ "." ++
    natStr (n / 256 % 256) ++ "." ++ natStr (n % 256)

/-- Is `cs` an octet as accepted by `ipaddress.IPv4Address`: nonempty, all
digits, no leading zero, value at most 255? -/
def validOctet (cs : List Char) : Bool :=
  !cs.isEmpty && allDigits cs && (cs.length = 1 || cs.head? != some '0') &&
    digitsVal cs ≤ 255

/-- Model of `ipaddress.IPv4Address(s)`: four dot-separated valid octets
give the 32-bit value; anything else raises (`none` — the expander catches
this with a bare `except`). -/
def parseIPv4 (s : String) : Option ℕ :=
  match splitOnChar '.' s.data with
  | [a, b, c, d] =>
    if validOctet a && validOctet b && validOctet c && validOctet d then
      some (digitsVal a * 16777216 + digitsVal b * 65536 + digitsVal c * 256 + digitsVal d)
    else none
  | _ => none

/-- The port component of a parsed URL: absent (no colon or empty port
string), a valid numeric value, or invalid — accessing `.port` on an
invalid port raises `ValueError` in Python, which the callers catch. -/
inductive PortVal where
  | absent
  | val (n : ℕ)
  | invalid
deriving DecidableEq

/-- The three components of `urllib.parse.urlparse` output that the code
reads: `hostname` (lower-cased, `none` when there is no netloc or it is
empty), `port`, and `path` (query and fragment stripped). -/
structure ParsedUrl where
  hostname : Option String
  port : PortVal
  path : String
deriving DecidableEq

/-- A character that terminates the netloc component. -/
def isNetlocEnd (c : Char) : Bool := c = '/' || c = '?' || c = '#'

/-- A character that starts the query or fragment component. -/
def isQueryStart (c : Char) : Bool := c = '?' || c = '#'

/-- Parse the characters after the netloc's colon into a `PortVal`. -/
def parsePort (cs : List Char) : PortVal :=
  if cs.isEmpty then PortVal.absent
  else if allDigits cs && digitsVal cs ≤ 65535 then PortVal.val (digitsVal cs)
  else PortVal.invalid

/-- Split at the first occurrence of the separator `sep`, returning the
characters before and after it; `none` when `sep` does not occur. -/
def splitOnceStr (sep : List Char) : List Char → Option (List Char × List Char)
  | [] => none
  | c :: cs =>
    if startsWithList sep (c :: cs) then some ([], (c :: cs).drop sep.length)
    else
      match splitOnceStr sep cs with
      | some (a, b) => some (c :: a, b)
      | none => none

/-- Model of `urllib.parse.urlparse` restricted to the fields the code
reads, for hierarchical URLs: the netloc is everything after the first
`://` up to the first of `/`, `?`, `#`; the hostname is its (lower-cased)
part before the colon, `none` when empty or when the URL has no `://`; the
path is what follows the netloc, up to the query/fragment. -/
def urlparse (url : String) : ParsedUrl :=
  match splitOnceStr [':', '/', '/'] url.data with
  | none =>
    { hostname := none, port := PortVal.absent,
      path := String.mk (url.data.takeWhile (fun c => !isQueryStart c)) }
  | some (_, rest) =>
    let netloc := rest.takeWhile (fun c => !isNetlocEnd c)
    let after := rest.drop netloc.length
    let host := netloc.takeWhile (fun c => c ≠ ':')
    { hostname := if host.isEmpty then none else some (String.mk (host.map asciiToLower))
      port := if host.length < netloc.length then parsePort (netloc.drop (host.length + 1))
              else PortVal.absent
      path := String.mk (after.takeWhile (fun c => !isQueryStart c)) }

/-- Python's `parsed.port or 80` as used at src/smart_camera_expander.py
lines 105 and 211: `None` and the falsy port 0 default to 80; accessing an
invalid port raises `ValueError` (`none`), which the enclosing handlers
turn into an empty candidate list / a rejected probe. -/
def portOrDefault : PortVal → Option ℕ
  | PortVal.absent => some 80
  | PortVal.val n => some (if n = 0 then 80 else n)
  | PortVal.invalid => none

/-- The f-string `"http://{host}:{port}{path}"` used to assemble candidate
URLs. -/
def httpUrl (host : String) (port : ℕ) (path : String) : String :=
  "http://" ++ host ++ ":" ++ natStr port ++ path

/-- Fuel-based core of the replace-all scan (structural recursion so that
it evaluates by kernel reduction); the fuel never runs out when it starts
at the input's length. -/
def replaceListAux (pat rep : List Char) : ℕ → List Char → List Char
  | _, [] => []
  | 0, cs => cs
  | fuel + 1, c :: cs =>
    if startsWithList pat (c :: cs) && !pat.isEmpty then
      rep ++ replaceListAux pat rep fuel (cs.drop (pat.length - 1))
    else c :: replaceListAux pat rep fuel cs

/-- Model of Python's `str.replace(pat, rep)` (replace every non-overlapping
occurrence, scanning left to right); the patterns the code uses are all
nonempty. -/
def replaceList (pat rep cs : List Char) : List Char :=
  replaceListAux pat rep cs.length cs

/-- Python's `str.replace` on strings. -/
def strReplace (s pat rep : String) : String :=
  String.mk (replaceList pat.data rep.data s.data)

/-- Embedding of `SmartCameraExpander.generate_path_variations`
(lines 140-181); `counterDraw` models the `random.randint(1000, 9999)`
used for the COUNTER substitution. -/
def generate_path_variations (base_path : String) (counterDraw : ℕ) : List String :=
  (if hasSub base_path "Resolution=" then
    [strReplace base_path "Resolution=640x480" "Resolution=320x240",
     strReplace base_path "Resolution=640x480" "Resolution=800x600",
     strReplace base_path "Resolution=640x480" "Resolution=1024x768"] else []) ++
  (if hasSub base_path "Quality=" then
    [strReplace base_path "Quality=Clarity" "Quality=Standard",
     strReplace base_path "Quality=Standard" "Quality=Clarity"] else []) ++
  (if hasSub base_path "resolution=" then
    [strReplace base_path "resolution=640" "resolution=320",
     strReplace base_path "resolution=640" "resolution=800"] else []) ++
  (if hasSub base_path "cam_1" then
    (List.range' 2 4).map (fun i => strReplace base_path "cam_1" ("cam_" ++ natStr i))
   else []) ++
  (if hasSub base_path "channel=1" then
    (List.range' 2 3).map (fun i => strReplace base_path "channel=1" ("channel=" ++ natStr i))
   else []) ++
  (if hasSub base_path "COUNTER" then
    [strReplace base_path "COUNTER" (natStr counterDraw),
     strReplace base_path "COUNTER" ""] else [])

/-- The IP-mutation loop of `generate_similar_urls` (lines 113-124): for
each random draw `d` (`random.randint(1, 254)`), form
`network_address + d`, keep it when its dotted rendering differs from the
seed host string, pair it with the seed port and path, and on the default
port 80 additionally emit the three alternate-port variants. -/
def ip_variation_urls (base_ip : String) (base_port : ℕ) (base_path : String)
    (net : ℕ) (draws : List ℕ) : List String :=
  draws.flatMap (fun d =>
    let random_ip := ipToString (net + d)
    if random_ip ≠ base_ip then
      httpUrl random_ip base_port base_path ::
        (if base_port = 80 then
          [httpUrl random_ip 8080 base_path, httpUrl random_ip 8081 base_path,
           httpUrl random_ip 8888 base_path]
         else [])
    else [])

/-- Embedding of `SmartCameraExpander.generate_similar_urls` (lines 91-138):
empty media URL or missing hostname returns empty; an invalid port raises
`ValueError` before any URL is appended and the enclosing handler returns
the empty list; a hostname that is not a numeric IPv4 only skips the
IP-mutation block (bare `except: pass`), path variations are still emitted
for a nonempty path; the trailing `list(set(urls))` is modelled by
`List.dedup` (the Python set's iteration order is unspecified; the
properties proved about the result are order-insensitive). -/
def generate_similar_urls (image_url : String) (variations : ℕ) (draws : List ℕ)
    (counterDraw : ℕ) : List String :=
  if image_url = "" then []
  else
    match (urlparse image_url).hostname with
    | none => []
    | some base_ip =>
      match portOrDefault (urlparse image_url).port with
      | none => []
      | some base_port =>
        let base_path := (urlparse image_url).path
        let ipUrls :=
          match parseIPv4 base_ip with
          | some a =>
            ip_variation_urls base_ip base_port base_path (a / 256 * 256)
              (draws.take variations)
          | none => []
        let pathUrls :=
          if base_path ≠ "" then
            ((generate_path_variations base_path counterDraw).take 10).map
              (fun pv => httpUrl base_ip base_port pv)
          else []
        (ipUrls ++ pathUrls).dedup

/-- The Validator's acceptance conditions of §4.2a / `extract_validate`,
re-checked on a materialized Record: the four required fields present and
non-sentinel, the coordinates numeric and in range.  Every record built by
`extract_validate` satisfies this by construction; the expansion probe's
records need not. -/
def validatorAcceptsRecord (r : CameraRecord) : Bool :=
  match r.latitude, r.longitude, r.country, r.city with
  | some la, some lo, some c, some ci =>
    c != "N/A" && ci != "N/A" && decide (-90 ≤ la) && decide (la ≤ 90) &&
      decide (-180 ≤ lo) && decide (lo ≤ 180)
  | _, _, _, _ => false

/-- Outcome of the streaming probe `session.get(url, timeout=8, stream=True)`:
a raised exception, or a response with a status code and an optional
content-type header. -/
inductive ProbeOutcome where
  | exn
  | resp (statusCode : ℕ) (contentType : Option String)
deriving DecidableEq

/-- The media check of `test_camera_url`: any of the three media type
markers occurs in the lower-cased content-type header. -/
def isMediaContentType (ct : String) : Bool :=
  hasSub ct "image/" || hasSub ct "video/" || hasSub ct "multipart/x-mixed-replace"

/-- Python's `f"...{x}..."` rendering of an `Option String` (an absent
hostname prints as the string "None"). -/
def pyStrOpt : Option String → String
  | some s => s
  | none => "None"

/-- Embedding of `SmartCameraExpander.test_camera_url` (lines 183-221): on a
200 response whose content-type contains a media marker, resolve
geolocation (both provider outcomes passed through to
`get_ip_geolocation`); if that returns an answer, build the expansion
record dict directly from it — geolocation values are copied verbatim, the
manufacturer inferred from the URL — with no further validation.  Every
exception (including a `ValueError` from `parsed.port`) is swallowed into
`None`. -/
def test_camera_url (url : String) (probe : ProbeOutcome)
    (provA : FetchOutcome ApiAData) (provB : FetchOutcome ApiBData) :
    Option CameraRecord :=
  match probe with
  | ProbeOutcome.exn => none
  | ProbeOutcome.resp statusCode contentType =>
    if statusCode = 200 then
      if isMediaContentType (strLower (contentType.getD "")) then
        match get_ip_geolocation provA provB with
        | some g =>
          match portOrDefault (urlparse url).port with
          | some port =>
            some { latitude := g.lat, longitude := g.lon, country := g.country,
                   city := g.city, region := g.region,
                   manufacturer := detect_manufacturer url, image_url := url,
                   page_url := "http://" ++ pyStrOpt (urlparse url).hostname ++ ":" ++
                     natStr port,
                   source := some "smart_expansion",
                   ip_address := (urlparse url).hostname }
          | none => none
        | none => none
      else none
    else none

/-- The candidate-filtering step of `expand_camera_database`
(lines 324-337): deduplicate the generated URLs (`set(test_urls)`, modelled
as `List.dedup`; the claims proved are order-insensitive), drop every URL
equal to some existing record's `image_url`, and submit at most
`target * 2` of them to the probe pool. -/
def expansion_submitted (existing : List CameraRecord) (generated : List String)
    (target : ℕ) : List String :=
  ((generated.dedup.filter
      (fun u => !(existing.map (fun cam => cam.image_url)).contains u)).take
    (target * 2))

/-- One discovery-mode task: fetch a candidate page (`pages` maps each
candidate URL to the raw fields scraped off it, `none` for any failed
fetch/parse) and run it through the extractor/Validator. -/
def discovery_outcome (pages : String → Option RawFields) (url : String) :
    Option CameraRecord :=
  extract_camera_details (pages url) url

/-- The discovery pipeline's accepted records, given the per-task outcomes
consumed in completion order `comp` (a permutation of the deduplicated
harvested links — `as_completed` yields results in arbitrary order). -/
def discovery_records (pages : String → Option RawFields) (comp : List String) :
    List CameraRecord :=
  comp.filterMap (fun url => discovery_outcome pages url)

/-- C1 counterexample: a probe-accepted candidate (status 200, content-type
image/jpeg) whose geolocation answer carries latitude 1234 yields a
materialized expansion record that fails the Validator's acceptance
conditions — `test_camera_url` builds and returns the record with no
Validator step, so a Record is emitted downstream without passing Validator
acceptance. -/
theorem C1_counterexample :
    (test_camera_url "http://1.2.3.5:80/snap.jpg"
        (ProbeOutcome.resp 200 (some "image/jpeg"))
        (FetchOutcome.resp 200 (some ⟨true, none, none, none, none, none⟩))
        (FetchOutcome.resp 200 (some ⟨some "success", some 1234, some 5,
          some "Testland", some "Testville", some "T"⟩))).map validatorAcceptsRecord =
      some false := by
  decide

/-- C1 amended: the invariant holds for the discovery pipeline only — every
Record materialized by the Detail Extractor has passed the Validator's
acceptance conditions; the expansion probe's records are built directly
from the geolocation answer without Validator acceptance and can violate
it. -/
theorem C1_amended_discovery_validated (page : Option RawFields)
    (camera_url : String) (r : CameraRecord)
    (h : extract_camera_details page camera_url = some r) :
    validatorAcceptsRecord r = true := by
  rcases page with _ | f
  · exact absurd h (by simp [extract_camera_details])
  · simp only [extract_camera_details] at h
    unfold extract_validate at h
    rw [Option.ite_none_right_eq_some] at h
    obtain ⟨hs, h⟩ := h
    rcases hla : pyFloat f.lat with _ | la <;> rw [hla] at h
    · exact absurd h (by simp)
    · rcases hlo : pyFloat f.lon with _ | lo <;> rw [hlo] at h
      · exact absurd h (by simp)
      · rw [Option.ite_none_right_eq_some, Option.some.injEq] at h
        obtain ⟨hr, hrec⟩ := h
        subst hrec
        simp [validatorAcceptsRecord, hs.2.2.1, hs.2.2.2, hr.1, hr.2.1,
          hr.2.2.1, hr.2.2.2]

/-- The raw field set a valid detail page yields, used as concrete sample
data. -/
def sampleRawFields : RawFields :=
  { lat := "10", lon := "20", country := "France", city := "Paris",
    region := "IDF", manufacturer := "Axis",
    image_url := "http://203.0.113.9:80/mjpg/video.mjpg" }

theorem C1_amended_witness : validatorAcceptsRecord sampleRecord = true :=
  C1_amended_discovery_validated (some sampleRawFields)
    "http://www.insecam.org/en/view/1/" sampleRecord (by decide)

/-- C3 counterexample: from the seed `http://1.2.3.4:80/cam_1.cgi` (numeric
IPv4 host A = 1.2.3.4) the Candidate Generator emits
`http://1.2.3.4:80/cam_2.cgi`, a path-variation candidate whose host equals
A itself — contradicting the claim that every candidate's host differs from
A. -/
theorem C3_counterexample :
    "http://1.2.3.4:80/cam_2.cgi" ∈
        generate_similar_urls "http://1.2.3.4:80/cam_1.cgi" 15 [5] 777 ∧
    (urlparse "http://1.2.3.4:80/cam_1.cgi").hostname = some "1.2.3.4" ∧
    (urlparse "http://1.2.3.4:80/cam_2.cgi").hostname = some "1.2.3.4" := by
  decide

/-- C5 counterexample: the seed `http://example.com:80/cam_1.cgi` is a
well-formed URL whose host is not a numeric IPv4 address, yet the Candidate
Generator returns a non-empty candidate list (the IPv4 failure only skips
the address-mutation block; path variations are still generated). -/
theorem C5_counterexample :
    (urlparse "http://example.com:80/cam_1.cgi").hostname = some "example.com" ∧
    parseIPv4 "example.com" = none ∧
    generate_similar_urls "http://example.com:80/cam_1.cgi" 15 [1] 1234 ≠ [] := by
  decide

/-- C5 amended: the Candidate Generator returns the empty sequence when the
seed media URL is empty, has no parseable hostname, or has an invalid port
component; a well-formed URL with a non-IPv4 host does not force emptiness,
since path-variation candidates are still emitted. -/
theorem C5_amended_empty_cases (image_url : String) (variations : ℕ)
    (draws : List ℕ) (counterDraw : ℕ)
    (h : image_url = "" ∨ (urlparse image_url).hostname = none ∨
      portOrDefault (urlparse image_url).port = none) :
    generate_similar_urls image_url variations draws counterDraw = [] := by
  unfold generate_similar_urls
  rcases h with h | h | h
  · simp [h]
  · by_cases he : image_url = ""
    · simp [he]
    · simp [he, h]
  · by_cases he : image_url = ""
    · simp [he]
    · rcases hh : (urlparse image_url).hostname with _ | bip
      · simp [he, hh]
      · simp [he, hh, h]

theorem C5_amended_witness :
    generate_similar_urls "notaurl" 20 [1, 2] 5 = [] :=
  C5_amended_empty_cases "notaurl" 20 [1, 2] 5 (Or.inr (Or.inl (by decide)))

theorem data_append (s t : String) : (s ++ t).data = s.data ++ t.data := rfl

theorem data_mk (l : List Char) : (String.mk l).data = l := rfl

theorem digitChar_isDigit (n : ℕ) (h : n < 10) : (digitChar n).isDigit = true := by
  interval_cases n <;> decide

theorem natReprAux_digits (fuel : ℕ) :
    ∀ n c, c ∈ natReprAux fuel n → c.isDigit = true := by
  induction fuel with
  | zero => intro n c hc; simp [natReprAux] at hc
  | succ fuel ih =>
    intro n c hc
    unfold natReprAux at hc
    split at hc
    · rename_i h
      rw [List.mem_singleton] at hc
      subst hc
      exact digitChar_isDigit n h
    · rw [List.mem_append, List.mem_singleton] at hc
      rcases hc with hc | hc
      · exact ih _ c hc
      · subst hc
        exact digitChar_isDigit _ (Nat.mod_lt _ (by omega))

theorem natRepr_digits (n : ℕ) (c : Char) (hc : c ∈ natRepr n) : c.isDigit = true :=
  natReprAux_digits (n + 1) n c hc

theorem natRepr_ne_nil (n : ℕ) : natRepr n ≠ [] := by
  unfold natRepr natReprAux
  split <;> simp

theorem asciiToLower_digit_dot (c : Char) (h : c.isDigit = true ∨ c = '.') :
    asciiToLower c = c := by
  rcases h with h | h
  · unfold asciiToLower
    rw [if_neg]
    rintro ⟨h1, _⟩
    rw [Char.le_def] at h1
    simp only [Char.isDigit, Bool.and_eq_true, decide_eq_true_eq] at h
    have h2 : ('A' : Char).val ≤ (57 : UInt32) := UInt32.le_trans h1 h.2
    exact absurd h2 (by decide)
  · subst h; decide

theorem isNetlocEnd_false_of_digit_dot (c : Char) (h : c.isDigit = true ∨ c = '.') :
    isNetlocEnd c = false := by
  rcases h with h | h
  · have h1 : c ≠ '/' := by rintro rfl; exact absurd h (by decide)
    have h2 : c ≠ '?' := by rintro rfl; exact absurd h (by decide)
    have h3 : c ≠ '#' := by rintro rfl; exact absurd h (by decide)
    simp [isNetlocEnd, h1, h2, h3]
  · subst h; decide

theorem ne_colon_of_digit_dot (c : Char) (h : c.isDigit = true ∨ c = '.') :
    c ≠ ':' := by
  rcases h with h | h
  · rintro rfl; exact absurd h (by decide)
  · subst h; decide

theorem takeWhile_append_all {p : Char → Bool} :
    ∀ xs : List Char, (∀ c ∈ xs, p c = true) →
      ∀ ys : List Char, (xs ++ ys).takeWhile p = xs ++ ys.takeWhile p := by
  intro xs
  induction xs with
  | nil => intro _ ys; simp
  | cons x xs ih =>
    intro h ys
    rw [List.cons_append, List.takeWhile_cons, h x (by simp), List.cons_append]
    rw [ih (fun c hc => h c (by simp [hc])) ys]
    simp

theorem dropWhile_head_false {p : Char → Bool} :
    ∀ (l : List Char) (c : Char) (t : List Char), l.dropWhile p = c :: t →
      p c = false := by
  intro l
  induction l with
  | nil => intro c t h; simp [List.dropWhile] at h
  | cons x xs ih =>
    intro c t h
    rw [List.dropWhile_cons] at h
    by_cases hp : p x = true
    · rw [if_pos hp] at h; exact ih c t h
    · rw [if_neg hp] at h
      cases h
      exact eq_false_of_ne_true hp

theorem splitOnceStr_http (rest : List Char) :
    splitOnceStr [':', '/', '/']
        ('h' :: 't' :: 't' :: 'p' :: ':' :: '/' :: '/' :: rest) =
      some (['h', 't', 't', 'p'], rest) := rfl

theorem ipToString_data (n : ℕ) :
    (ipToString n).data =
      natRepr (n / 16777216 % 256) ++ ['.'] ++ natRepr (n / 65536 % 256) ++ ['.'] ++
        natRepr (n / 256 % 256) ++ ['.'] ++ natRepr (n % 256) := rfl

theorem ipToString_chars (n : ℕ) (c : Char) (hc : c ∈ (ipToString n).data) :
    c.isDigit = true ∨ c = '.' := by
  rw [ipToString_data] at hc
  simp only [List.mem_append, List.mem_singleton] at hc
  rcases hc with ((((((hc | hc) | hc) | hc) | hc) | hc) | hc) <;>
    first
      | exact Or.inr hc
      | exact Or.inl (natRepr_digits _ _ hc)

theorem ipToString_ne_nil (n : ℕ) : (ipToString n).data ≠ [] := by
  rw [ipToString_data]
  simp [natRepr_ne_nil]

theorem urlparse_httpUrl_hostname (host : String) (port : ℕ) (path : String)
    (hne : host.data ≠ [])
    (hchar : ∀ c ∈ host.data, c.isDigit = true ∨ c = '.')
    (hpath : path.data = [] ∨ ∃ t, path.data = '/' :: t) :
    (urlparse (httpUrl host port path)).hostname = some host := by
  have hdata : (httpUrl host port path).data =
      'h' :: 't' :: 't' :: 'p' :: ':' :: '/' :: '/' ::
        (host.data ++ ':' :: (natRepr port ++ path.data)) := by
    show ("http://" ++ host ++ ":" ++ natStr port ++ path).data = _
    simp only [data_append]
    show ['h', 't', 't', 'p', ':', '/', '/'] ++ host.data ++ [':'] ++ natRepr port ++
      path.data = _
    simp [List.append_assoc]
  have hhostchars : ∀ c ∈ host.data, (!isNetlocEnd c) = true := by
    intro c hc
    simp [isNetlocEnd_false_of_digit_dot c (hchar c hc)]
  have hportchars : ∀ c ∈ natRepr port, (!isNetlocEnd c) = true := by
    intro c hc
    simp [isNetlocEnd_false_of_digit_dot c (Or.inl (natRepr_digits _ _ hc))]
  have hnetloc : (host.data ++ ':' :: (natRepr port ++ path.data)).takeWhile
      (fun c => !isNetlocEnd c) = host.data ++ ':' :: natRepr port := by
    rw [takeWhile_append_all host.data hhostchars, List.takeWhile_cons]
    rw [show (!isNetlocEnd ':') = true from by decide]
    rw [takeWhile_append_all (natRepr port) hportchars]
    rcases hpath with hp | ⟨t, hp⟩ <;> rw [hp]
    · simp
    · rw [List.takeWhile_cons, show (!isNetlocEnd '/') = false from by decide]
      simp
  have hhost2 : (host.data ++ ':' :: natRepr port).takeWhile
      (fun c => decide (c ≠ ':')) = host.data := by
    rw [takeWhile_append_all host.data
      (fun c hc => by simp [ne_colon_of_digit_dot c (hchar c hc)])]
    rw [List.takeWhile_cons]
    simp
  have hmap : host.data.map asciiToLower = host.data := by
    conv_rhs => rw [← List.map_id host.data]
    exact List.map_congr_left (fun c hc => asciiToLower_digit_dot c (hchar c hc))
  unfold urlparse
  rw [hdata, splitOnceStr_http]
  dsimp only
  rw [hnetloc, hhost2, hmap]
  rw [show host.data.isEmpty = false from by
    cases hd : host.data
    · exact absurd hd hne
    · rfl]
  simp

theorem drop_takeWhile_length (p : Char → Bool) :
    ∀ l : List Char, l.drop (l.takeWhile p).length = l.dropWhile p := by
  intro l
  induction l with
  | nil => rfl
  | cons x xs ih =>
    rw [List.takeWhile_cons, List.dropWhile_cons]
    by_cases hp : p x = true
    · rw [if_pos hp, if_pos hp]
      simpa using ih
    · rw [if_neg hp, if_neg hp]
      rfl

theorem urlparse_path_shape (s : String) (h : (urlparse s).hostname.isSome = true) :
    (urlparse s).path.data = [] ∨ ∃ t, (urlparse s).path.data = '/' :: t := by
  unfold urlparse at h ⊢
  cases hsp : splitOnceStr [':', '/', '/'] s.data with
  | none => simp only [hsp] at h; simp at h
  | some pr =>
    obtain ⟨scheme, rest⟩ := pr
    simp only [hsp] at h ⊢
    rw [drop_takeWhile_length]
    cases hafter : rest.dropWhile (fun c => !isNetlocEnd c) with
    | nil => left; rfl
    | cons c t =>
      have hc : (!isNetlocEnd c) = false := dropWhile_head_false _ c t hafter
      have hc2 : isNetlocEnd c = true := by
        cases hm : isNetlocEnd c
        · rw [hm] at hc; simp at hc
        · rfl
      simp only [isNetlocEnd, Bool.or_eq_true, decide_eq_true_eq] at hc2
      rcases hc2 with (hc2 | hc2) | hc2 <;> subst hc2
      · right
        rw [List.takeWhile_cons]
        rw [show (!isQueryStart '/') = true from by decide]
        exact ⟨t.takeWhile (fun c => !isQueryStart c), rfl⟩
      · left
        rw [List.takeWhile_cons]
        rw [show (!isQueryStart '?') = false from by decide]
        rfl
      · left
        rw [List.takeWhile_cons]
        rw [show (!isQueryStart '#') = false from by decide]
        rfl

theorem splitOnChar_ne_nil (sep : Char) : ∀ cs : List Char, splitOnChar sep cs ≠ [] := by
  intro cs
  induction cs with
  | nil => simp [splitOnChar]
  | cons c cs ih =>
    unfold splitOnChar
    split
    · simp
    · cases h : splitOnChar sep cs with
      | nil => simp
      | cons g gs => simp

theorem splitOnChar_mem (sep : Char) :
    ∀ (cs : List Char) (c : Char), c ∈ cs →
      c = sep ∨ ∃ g ∈ splitOnChar sep cs, c ∈ g := by
  intro cs
  induction cs with
  | nil => intro c hc; simp at hc
  | cons x xs ih =>
    intro c hc
    rw [List.mem_cons] at hc
    unfold splitOnChar
    by_cases hx : x = sep
    · rw [if_pos hx]
      rcases hc with hc | hc
      · subst hc; subst hx; exact Or.inl rfl
      · rcases ih c hc with h | ⟨g, hg, hcg⟩
        · exact Or.inl h
        · exact Or.inr ⟨g, by simp [hg], hcg⟩
    · rw [if_neg hx]
      cases hs : splitOnChar sep xs with
      | nil => exact absurd hs (splitOnChar_ne_nil sep xs)
      | cons g gs =>
        rcases hc with hc | hc
        · subst hc
          exact Or.inr ⟨c :: g, by simp, by simp⟩
        · rcases ih c hc with h | ⟨g2, hg2, hcg2⟩
          · exact Or.inl h
          · rw [hs, List.mem_cons] at hg2
            rcases hg2 with hg2 | hg2
            · subst hg2
              exact Or.inr ⟨x :: g2, by simp, by simp [hcg2]⟩
            · exact Or.inr ⟨g2, by simp [hg2], hcg2⟩

theorem parseIPv4_octets (s : String) (a : ℕ) (h : parseIPv4 s = some a) :
    ∃ g1 g2 g3 g4, splitOnChar '.' s.data = [g1, g2, g3, g4] ∧
      validOctet g1 = true ∧ validOctet g2 = true ∧ validOctet g3 = true ∧
      validOctet g4 = true := by
  unfold parseIPv4 at h
  rcases hsp : splitOnChar '.' s.data with
      _ | ⟨g1, _ | ⟨g2, _ | ⟨g3, _ | ⟨g4, _ | ⟨g5, gs⟩⟩⟩⟩⟩ <;> rw [hsp] at h
  · simp at h
  · simp at h
  · simp at h
  · simp at h
  · dsimp only at h
    split at h
    · rename_i hv
      simp only [Bool.and_eq_true] at hv
      exact ⟨g1, g2, g3, g4, rfl, hv.1.1.1, hv.1.1.2, hv.1.2, hv.2⟩
    · simp at h
  · simp at h

theorem validOctet_digits (g0 : List Char) (hg0 : validOctet g0 = true) :
    ∀ c0 ∈ g0, c0.isDigit = true := by
  intro c0 hc0
  unfold validOctet at hg0
  simp only [Bool.and_eq_true] at hg0
  have hall := hg0.1.1.2
  unfold allDigits at hall
  rw [List.all_eq_true] at hall
  exact hall c0 hc0

theorem parseIPv4_chars (s : String) (a : ℕ) (h : parseIPv4 s = some a) :
    ∀ c ∈ s.data, c.isDigit = true ∨ c = '.' := by
  intro c hc
  obtain ⟨g1, g2, g3, g4, hsp, hv1, hv2, hv3, hv4⟩ := parseIPv4_octets s a h
  rcases splitOnChar_mem '.' s.data c hc with hd | ⟨g, hg, hcg⟩
  · exact Or.inr hd
  · rw [hsp] at hg
    simp only [List.mem_cons, List.not_mem_nil, or_false] at hg
    rcases hg with hg | hg | hg | hg <;> rw [hg] at hcg
    · exact Or.inl (validOctet_digits g1 hv1 c hcg)
    · exact Or.inl (validOctet_digits g2 hv2 c hcg)
    · exact Or.inl (validOctet_digits g3 hv3 c hcg)
    · exact Or.inl (validOctet_digits g4 hv4 c hcg)

theorem parseIPv4_ne_nil (s : String) (a : ℕ) (h : parseIPv4 s = some a) :
    s.data ≠ [] := by
  intro hd
  unfold parseIPv4 at h
  rw [hd] at h
  simp [splitOnChar] at h

theorem startsWithList_false_of_head_ne (p : Char) (ps : List Char) (c : Char)
    (cs : List Char) (h : p ≠ c) : startsWithList (p :: ps) (c :: cs) = false := by
  unfold startsWithList
  simp [h]

theorem replaceList_cons_of_not_match (pat rep : List Char) (c : Char) (cs : List Char)
    (h : startsWithList pat (c :: cs) = false) :
    replaceList pat rep (c :: cs) = c :: replaceListAux pat rep cs.length cs := by
  show replaceListAux pat rep (cs.length + 1) (c :: cs) = _
  rw [replaceListAux]
  rw [if_neg (fun hx => by rw [h] at hx; simp at hx)]

theorem strReplace_keeps_slash (bp : String) (t : List Char) (hbp : bp.data = '/' :: t)
    (pat rep : String) (p0 : Char) (ps : List Char) (hp : pat.data = p0 :: ps)
    (hne : p0 ≠ '/') :
    ∃ t2, (strReplace bp pat rep).data = '/' :: t2 := by
  unfold strReplace
  rw [data_mk, hbp, hp,
    replaceList_cons_of_not_match _ _ _ _ (startsWithList_false_of_head_ne p0 ps '/' t hne)]
  exact ⟨_, rfl⟩

theorem mem_ite_nil {c : Prop} [Decidable c] {l : List String} {x : String}
    (h : x ∈ (if c then l else [])) : c ∧ x ∈ l := by
  split at h
  · rename_i hc; exact ⟨hc, h⟩
  · simp at h

/-- Every path variation of a slash-headed path is itself slash-headed: all
replacement patterns start with a letter, never with the slash. -/
theorem generate_path_variations_shape (bp : String) (cd : ℕ) (t : List Char)
    (hbp : bp.data = '/' :: t) :
    ∀ pv ∈ generate_path_variations bp cd, ∃ t2, pv.data = '/' :: t2 := by
  intro pv hpv
  unfold generate_path_variations at hpv
  simp only [List.mem_append] at hpv
  rcases hpv with ((((hpv | hpv) | hpv) | hpv) | hpv) | hpv
  · obtain ⟨-, hpv⟩ := mem_ite_nil hpv
    simp only [List.mem_cons, List.not_mem_nil, or_false] at hpv
    rcases hpv with rfl | rfl | rfl <;>
      exact strReplace_keeps_slash bp t hbp _ _ 'R' _ rfl (by decide)
  · obtain ⟨-, hpv⟩ := mem_ite_nil hpv
    simp only [List.mem_cons, List.not_mem_nil, or_false] at hpv
    rcases hpv with rfl | rfl <;>
      exact strReplace_keeps_slash bp t hbp _ _ 'Q' _ rfl (by decide)
  · obtain ⟨-, hpv⟩ := mem_ite_nil hpv
    simp only [List.mem_cons, List.not_mem_nil, or_false] at hpv
    rcases hpv with rfl | rfl <;>
      exact strReplace_keeps_slash bp t hbp _ _ 'r' _ rfl (by decide)
  · obtain ⟨-, hpv⟩ := mem_ite_nil hpv
    rw [List.mem_map] at hpv
    obtain ⟨i, -, rfl⟩ := hpv
    exact strReplace_keeps_slash bp t hbp _ _ 'c' _ rfl (by decide)
  · obtain ⟨-, hpv⟩ := mem_ite_nil hpv
    rw [List.mem_map] at hpv
    obtain ⟨i, -, rfl⟩ := hpv
    exact strReplace_keeps_slash bp t hbp _ _ 'c' _ rfl (by decide)
  · obtain ⟨-, hpv⟩ := mem_ite_nil hpv
    simp only [List.mem_cons, List.not_mem_nil, or_false] at hpv
    rcases hpv with rfl | rfl <;>
      exact strReplace_keeps_slash bp t hbp _ _ 'C' _ rfl (by decide)

/-- C8: every address-mutation candidate emitted by the IP-variation loop
has a host of the form `net + d` with final octet `d ∈ [1, 254]` (the
randint contract), so the /24 network address (final octet 0) and the
broadcast address (final octet 255) are never generated as candidate
hosts. -/
theorem C8_final_octet_in_host_range (base_ip : String) (base_port : ℕ)
    (base_path : String) (net : ℕ) (draws : List ℕ)
    (hnet : net % 256 = 0)
    (hdr : ∀ d ∈ draws, 1 ≤ d ∧ d ≤ 254)
    (hpath : base_path.data = [] ∨ ∃ t, base_path.data = '/' :: t) :
    ∀ url ∈ ip_variation_urls base_ip base_port base_path net draws,
      ∃ v, (urlparse url).hostname = some (ipToString v) ∧
        1 ≤ v % 256 ∧ v % 256 ≤ 254 := by
  intro url hurl
  unfold ip_variation_urls at hurl
  rw [List.mem_flatMap] at hurl
  obtain ⟨d, hd, hmem⟩ := hurl
  obtain ⟨hd1, hd2⟩ := hdr d hd
  dsimp only at hmem
  by_cases hne : ipToString (net + d) ≠ base_ip
  · rw [if_pos hne] at hmem
    have hhost : ∀ p : ℕ,
        (urlparse (httpUrl (ipToString (net + d)) p base_path)).hostname =
          some (ipToString (net + d)) := fun p =>
      urlparse_httpUrl_hostname _ p _ (ipToString_ne_nil _) (ipToString_chars _) hpath
    refine ⟨net + d, ?_, by omega, by omega⟩
    rw [List.mem_cons] at hmem
    rcases hmem with rfl | hmem
    · exact hhost base_port
    · obtain ⟨-, hmem⟩ := mem_ite_nil hmem
      simp only [List.mem_cons, List.not_mem_nil, or_false] at hmem
      rcases hmem with rfl | rfl | rfl
      · exact hhost 8080
      · exact hhost 8081
      · exact hhost 8888
  · rw [if_neg hne] at hmem
    simp at hmem

theorem C8_witness :
    ∃ v, (urlparse "http://203.0.113.7:80/snap.jpg").hostname =
        some (ipToString v) ∧ 1 ≤ v % 256 ∧ v % 256 ≤ 254 :=
  C8_final_octet_in_host_range "203.0.113.5" 80 "/snap.jpg" 3405803776 [7]
    (by decide) (by decide) (Or.inr ⟨"snap.jpg".data, rfl⟩)
    "http://203.0.113.7:80/snap.jpg" (by decide)

/-- C3 amended: for a seed whose media URL has numeric IPv4 host A, every
candidate the Generator emits either is an address-mutation candidate —
host inside A's /24 block (value `A/256*256 + d` with `d ∈ [1, 254]`) and
different from A — or is a path-variation candidate whose host is exactly
the seed host A itself (within the /24 but not different from A). -/
theorem C3_amended_generator_hosts (image_url : String) (variations : ℕ)
    (draws : List ℕ) (counterDraw : ℕ) (base_ip : String) (a : ℕ)
    (hhost : (urlparse image_url).hostname = some base_ip)
    (hip : parseIPv4 base_ip = some a)
    (hdr : ∀ d ∈ draws, 1 ≤ d ∧ d ≤ 254) :
    ∀ url ∈ generate_similar_urls image_url variations draws counterDraw,
      (∃ d, 1 ≤ d ∧ d ≤ 254 ∧
        (urlparse url).hostname = some (ipToString (a / 256 * 256 + d)) ∧
        ipToString (a / 256 * 256 + d) ≠ base_ip) ∨
      (urlparse url).hostname = some base_ip := by
  intro url hurl
  have hpath := urlparse_path_shape image_url (by rw [hhost]; rfl)
  unfold generate_similar_urls at hurl
  by_cases hemp : image_url = ""
  · rw [if_pos hemp] at hurl
    simp at hurl
  · rw [if_neg hemp, hhost] at hurl
    dsimp only at hurl
    cases hport : portOrDefault (urlparse image_url).port with
    | none =>
      rw [hport] at hurl
      simp at hurl
    | some base_port =>
      rw [hport, hip] at hurl
      dsimp only at hurl
      rw [List.mem_dedup, List.mem_append] at hurl
      rcases hurl with hurl | hurl
      · left
        unfold ip_variation_urls at hurl
        rw [List.mem_flatMap] at hurl
        obtain ⟨d, hd, hmem⟩ := hurl
        obtain ⟨hd1, hd2⟩ := hdr d (List.mem_of_mem_take hd)
        dsimp only at hmem
        by_cases hne : ipToString (a / 256 * 256 + d) ≠ base_ip
        · rw [if_pos hne] at hmem
          have hh : ∀ p : ℕ,
              (urlparse (httpUrl (ipToString (a / 256 * 256 + d)) p
                (urlparse image_url).path)).hostname =
              some (ipToString (a / 256 * 256 + d)) := fun p =>
            urlparse_httpUrl_hostname _ p _ (ipToString_ne_nil _)
              (ipToString_chars _) hpath
          refine ⟨d, hd1, hd2, ?_, hne⟩
          rw [List.mem_cons] at hmem
          rcases hmem with rfl | hmem
          · exact hh base_port
          · obtain ⟨-, hmem⟩ := mem_ite_nil hmem
            simp only [List.mem_cons, List.not_mem_nil, or_false] at hmem
            rcases hmem with rfl | rfl | rfl
            · exact hh 8080
            · exact hh 8081
            · exact hh 8888
        · rw [if_neg hne] at hmem
          simp at hmem
      · right
        obtain ⟨hbp, hurl⟩ := mem_ite_nil hurl
        rw [List.mem_map] at hurl
        obtain ⟨pv, hpv, rfl⟩ := hurl
        rcases hpath with hp0 | ⟨t, hp0⟩
        · exact absurd (String.ext hp0) hbp
        · obtain ⟨t2, hpv2⟩ := generate_path_variations_shape _ counterDraw t hp0 pv
            (List.mem_of_mem_take hpv)
          exact urlparse_httpUrl_hostname base_ip base_port pv
            (parseIPv4_ne_nil base_ip a hip) (parseIPv4_chars base_ip a hip)
            (Or.inr ⟨t2, hpv2⟩)

theorem C3_amended_witness :
    (∃ d, 1 ≤ d ∧ d ≤ 254 ∧
      (urlparse "http://1.2.3.5:80/cam_1.cgi").hostname =
        some (ipToString (16909060 / 256 * 256 + d)) ∧
      ipToString (16909060 / 256 * 256 + d) ≠ "1.2.3.4") ∨
    (urlparse "http://1.2.3.5:80/cam_1.cgi").hostname = some "1.2.3.4" :=
  C3_amended_generator_hosts "http://1.2.3.4:80/cam_1.cgi" 15 [5] 777 "1.2.3.4"
    16909060 (by decide) (by decide) (by decide)
    "http://1.2.3.5:80/cam_1.cgi" (by decide)

theorem length_filterMap_of_isSome {α β : Type} (f : α → Option β) :
    ∀ l : List α, (∀ x ∈ l, (f x).isSome = true) →
      (l.filterMap f).length = l.length := by
  intro l
  induction l with
  | nil => intro _; rfl
  | cons x xs ih =>
    intro h
    rw [List.filterMap_cons]
    cases hx : f x with
    | none =>
      have := h x (by simp)
      rw [hx] at this
      simp at this
    | some b =>
      simp only [List.length_cons]
      rw [ih (fun y hy => h y (by simp [hy]))]

theorem extract_origin_listing (page : Option RawFields) (camera_url : String)
    (r : CameraRecord) (h : extract_camera_details page camera_url = some r) :
    r.origin = Origin.listing := by
  rcases page with _ | f
  · exact absurd h (by simp [extract_camera_details])
  · simp only [extract_camera_details] at h
    unfold extract_validate at h
    rw [Option.ite_none_right_eq_some] at h
    obtain ⟨-, h⟩ := h
    rcases hla : pyFloat f.lat with _ | la <;> rw [hla] at h
    · exact absurd h (by simp)
    · rcases hlo : pyFloat f.lon with _ | lo <;> rw [hlo] at h
      · exact absurd h (by simp)
      · rw [Option.ite_none_right_eq_some, Option.some.injEq] at h
        obtain ⟨-, hrec⟩ := h
        subst hrec
        rfl

/-- C7: every Record produced by the discovery pipeline carries the
provenance tag `origin = listing` (realized as the absence of the
`"source"` key); and when the harvester yields 3 distinct candidate links
whose detail pages all validate, the pipeline produces exactly 3 Records —
for any completion order `comp` of the deduplicated links under the
`as_completed` worker pool. -/
theorem C7_discovery_origin_and_count (pages : String → Option RawFields)
    (links comp : List String) (hperm : comp.Perm links.dedup) :
    (∀ r ∈ discovery_records pages comp, r.origin = Origin.listing) ∧
    (links.Nodup → links.length = 3 →
      (∀ u ∈ links, (discovery_outcome pages u).isSome = true) →
      (discovery_records pages comp).length = 3) := by
  constructor
  · intro r hr
    unfold discovery_records at hr
    rw [List.mem_filterMap] at hr
    obtain ⟨u, -, hu⟩ := hr
    exact extract_origin_listing (pages u) u r hu
  · intro hnd hlen hall
    unfold discovery_records
    rw [length_filterMap_of_isSome]
    · rw [hperm.length_eq, hnd.dedup, hlen]
    · intro u hu
      have : u ∈ links := by
        rw [← List.mem_dedup]
        exact hperm.mem_iff.mp hu
      exact hall u this

/-- Concrete detail-page contents for the C7 witness: three candidate pages
each carrying valid fields. -/
def pagesW : String → Option RawFields :=
  fun u =>
    if u = "http://www.insecam.org/en/view/1/" ∨
        u = "http://www.insecam.org/en/view/2/" ∨
        u = "http://www.insecam.org/en/view/3/" then
      some { lat := "10", lon := "20", country := "France", city := "Paris",
             region := "IDF", manufacturer := "Axis",
             image_url := "http://203.0.113.9:80/mjpg/video.mjpg" }
    else none

theorem C7_witness :
    (discovery_records pagesW
      ["http://www.insecam.org/en/view/2/", "http://www.insecam.org/en/view/1/",
       "http://www.insecam.org/en/view/3/"]).length = 3 :=
  (C7_discovery_origin_and_count pagesW
      ["http://www.insecam.org/en/view/1/", "http://www.insecam.org/en/view/2/",
       "http://www.insecam.org/en/view/3/"]
      ["http://www.insecam.org/en/view/2/", "http://www.insecam.org/en/view/1/",
       "http://www.insecam.org/en/view/3/"]
      (by decide)).2 (by decide) (by decide) (by decide)

/-- C10: the URLs submitted to the probe pool during an expansion run are
internally deduplicated and never string-equal to the media URL of any
already-loaded existing Record. -/
theorem C10_no_existing_url_submitted (existing : List CameraRecord)
    (generated : List String) (target : ℕ) :
    (expansion_submitted existing generated target).Nodup ∧
    ∀ u ∈ expansion_submitted existing generated target,
      ∀ cam ∈ existing, u ≠ cam.image_url := by
  constructor
  · exact (generated.nodup_dedup.filter _).take
  · intro u hu cam hcam heq
    unfold expansion_submitted at hu
    have hu2 := List.mem_of_mem_take hu
    have hu3 := List.of_mem_filter hu2
    have hmem : cam.image_url ∈ existing.map (fun cam => cam.image_url) :=
      List.mem_map_of_mem _ hcam
    rw [← heq] at hmem
    simp only [Bool.not_eq_true'] at hu3
    have hcon : (existing.map (fun cam => cam.image_url)).contains u = true := by
      simpa using hmem
    rw [hu3] at hcon
    cases hcon

theorem C10_witness :
    (expansion_submitted [sampleRecord]
      ["http://10.0.0.1:80/a.jpg", "http://203.0.113.9:80/mjpg/video.mjpg",
       "http://10.0.0.1:80/a.jpg"] 5).Nodup :=
  (C10_no_existing_url_submitted [sampleRecord]
    ["http://10.0.0.1:80/a.jpg", "http://203.0.113.9:80/mjpg/video.mjpg",
     "http://10.0.0.1:80/a.jpg"] 5).1
